import Mathlib

/-!
# Cascading-filter dashboard: shallow embedding and verification

This file embeds the filter-state logic of the cascading-filter Looker
extension (src/config.ts, Tabs.tsx, Dashboards.tsx) in Lean 4 and proves
the specified properties of it.

Modelling choices:
* JavaScript objects used as string-keyed maps (`stagedFilters`,
  `activeFilters`, `filterOptions`, `queryBody.filters`) are modelled as
  functions `String → Option α`; `none` is an absent key, property
  deletion (`delete m[k]`) is pointwise update to `none`.
* Query-result rows are modelled as `String → Option String`: `none` is a
  null or missing field value, `some s` a non-null value rendered by
  `toString` as `s`.
* The recursive `getAllDependents` closure of Tabs.tsx has no structural
  termination argument in the source (it terminates because the shipped
  config's `listens_to` graph is acyclic), so it is embedded with an
  explicit fuel parameter; stabilisation of the fuel is proved below.
-/

-- ========================================================================
-- Static configuration (src/config.ts)
-- ========================================================================

/-- One entry of `TABS_CONFIG.filters` (config.ts): a filter definition with
an optional list of parent filter names it listens to. -/
structure FilterConfig where
  name : String
  label : String
  field : String
  type : String
  listens_to : List String := []
deriving DecidableEq, Repr

/-- `TABS_CONFIG.lookml.model` (config.ts). -/
def lookmlModel : String := "ecomm"

/-- `TABS_CONFIG.lookml.explore` (config.ts). -/
def lookmlExplore : String := "order_items"

/-- `TABS_CONFIG.filters` (config.ts): the five shipped filter definitions. -/
def TABS_CONFIG_filters : List FilterConfig :=
  [ { name := "Country", label := "Country", field := "users.country",
      type := "select_multi" },
    { name := "State", label := "State", field := "users.state",
      type := "select_multi", listens_to := ["Country"] },
    { name := "City", label := "City", field := "users.city",
      type := "select_multi", listens_to := ["Country", "State"] },
    { name := "Category", label := "Category", field := "products.category",
      type := "select_multi" },
    { name := "Department", label := "Department", field := "products.department",
      type := "button_group" } ]

/-- `TABS_CONFIG.date_filter.name` (config.ts). -/
def dateFilterName : String := "Created Date"

/-- `TABS_CONFIG.filters.find(f => f.name === filterName)` (Tabs.tsx). -/
def findFilter (filterName : String) : Option FilterConfig :=
  TABS_CONFIG_filters.find? (fun f => f.name == filterName)

-- ========================================================================
-- Filter-state maps (Tabs.tsx state)
-- ========================================================================

/-- A JS object mapping filter names to selected values
(`IAllFilters` of Tabs.tsx); `none` means the key is absent. -/
def FilterMap : Type := String → Option (List String)

/-- The empty filter map (`{}`). -/
def FilterMap.empty : FilterMap := fun _ => none

/-- Object-spread overwrite: `{ ...m, [k]: v }`. -/
def FilterMap.set (m : FilterMap) (k : String) (v : List String) : FilterMap :=
  fun x => if x = k then some v else m x

/-- Property deletion: `delete m[k]`. -/
def FilterMap.erase (m : FilterMap) (k : String) : FilterMap :=
  fun x => if x = k then none else m x

/-- `m[k] || []`: the stored list, or `[]` when the key is absent. -/
def FilterMap.getD (m : FilterMap) (k : String) : List String :=
  (m k).getD []

-- ========================================================================
-- Dependents closure (getAllDependents, Tabs.tsx)
-- ========================================================================

/-- `TABS_CONFIG.filters.filter(f => f.listens_to?.includes(name)).map(f => f.name)`:
the direct children of a filter in the listens_to graph. -/
def directDependents (name : String) : List String :=
  (TABS_CONFIG_filters.filter (fun f => f.listens_to.contains name)).map
    (fun f => f.name)

/-- The recursive `getAllDependents` of Tabs.tsx, with an explicit fuel
parameter standing in for the unbounded JS recursion. -/
def getAllDependentsFuel : Nat → String → List String
  | 0, _ => []
  | fuel + 1, name =>
    let directChildren := directDependents name
    directChildren ++ directChildren.flatMap (getAllDependentsFuel fuel)

/-- `getAllDependents` (Tabs.tsx): the JS recursion, which on the shipped
acyclic config needs recursion depth at most the number of filters. -/
def getAllDependents (name : String) : List String :=
  getAllDependentsFuel TABS_CONFIG_filters.length name

/-- The direct-dependency edge of the listens_to graph: `d` listens to `p`. -/
def directDep (p d : String) : Prop := d ∈ directDependents p

instance (p d : String) : Decidable (directDep p d) := by
  unfold directDep; infer_instance

/-- `d` is a direct or transitive dependent of `p`. -/
def TransDep (p d : String) : Prop := Relation.TransGen directDep p d

-- ========================================================================
-- Event handlers on the staged map (Tabs.tsx)
-- ========================================================================

/-- `oldValues.every(val => newValues.includes(val))` (Tabs.tsx). -/
def isPureAddition (oldValues newValues : List String) : Bool :=
  oldValues.all (fun val => newValues.contains val)

/-- `dependentsToClear.forEach(depName => { delete newFilters[depName] })`. -/
def eraseAll (m : FilterMap) (deps : List String) : FilterMap :=
  deps.foldl (fun acc depName => acc.erase depName) m

/-- `handleFilterChange` (Tabs.tsx): the state-updater applied to the
previous staged map. -/
def handleFilterChange (prevStagedFilters : FilterMap) (filterName : String)
    (newValues : List String) : FilterMap :=
  let oldValues := prevStagedFilters.getD filterName
  let newFilters := prevStagedFilters.set filterName newValues
  if isPureAddition oldValues newValues then
    newFilters
  else
    eraseAll newFilters (getAllDependents filterName)

/-- `handleButtonGroupChange` (Tabs.tsx). -/
def handleButtonGroupChange (stagedFilters : FilterMap) (filterName : String)
    (value : String) : FilterMap :=
  let newStagedFilters := stagedFilters.set filterName [value]
  eraseAll newStagedFilters (getAllDependents filterName)

-- ========================================================================
-- Option fetching (fetchFilterOptions, Tabs.tsx)
-- ========================================================================

/-- One `{value, label}` choice of a filter (`FilterOption`, Tabs.tsx). -/
structure FilterOption where
  value : String
  label : String
deriving DecidableEq, Repr

/-- A result row of `run_inline_query`: a map from field name to the string
rendering of the field value, `none` for a null or missing value. -/
def Row : Type := String → Option String

/-- The inline-query body built by `fetchFilterOptions` (Tabs.tsx):
model, view, requested fields and equality filters. -/
structure QueryBody where
  model : String
  view : String
  fields : List String
  filters : List (String × String)
deriving DecidableEq, Repr

/-- The `queryBody.filters` object built from the `dependencies` argument of
`fetchFilterOptions`: each parent with a non-empty value list whose config
exists contributes `parentConfig.field ↦ parentValues.join(",")`. -/
def buildQueryFilters (dependencies : List (String × List String)) :
    List (String × String) :=
  dependencies.foldl
    (fun acc pv =>
      if pv.2.length > 0 then
        match findFilter pv.1 with
        | some parentConfig =>
          acc ++ [(parentConfig.field, String.intercalate "," pv.2)]
        | none => acc
      else acc)
    []

/-- The full query body built by `fetchFilterOptions` for a filter config and
an optional `dependencies` argument (`none` when the call passes no
dependencies). -/
def buildQueryBody (filterConfig : FilterConfig)
    (dependencies : Option (List (String × List String))) : QueryBody :=
  { model := lookmlModel
    view := lookmlExplore
    fields := [filterConfig.field]
    filters :=
      match dependencies with
      | some deps => buildQueryFilters deps
      | none => [] }

/-- The row post-processing of `fetchFilterOptions`: keep rows whose field
value is non-null, and map each to a `{value, label}` pair holding the
string form of the field value. -/
def rowsToOptions (field : String) (result : List Row) : List FilterOption :=
  (result.filter (fun row => (row field).isSome)).map
    (fun row =>
      { value := (row field).getD "", label := (row field).getD "" })

/-- The `filterOptions` component state: filter name to fetched choices. -/
def OptionsMap : Type := String → Option (List FilterOption)

/-- `setFilterOptions(prev => ({ ...prev, [filterName]: options }))`. -/
def OptionsMap.set (m : OptionsMap) (k : String) (v : List FilterOption) :
    OptionsMap :=
  fun x => if x = k then some v else m x

/-- The effect of one completed `fetchFilterOptions` call on the
`filterOptions` state: a missing filter config or a failed query (caught,
logged) leaves the map untouched; a successful query stores the mapped
rows under the filter's name. -/
def fetchFilterOptionsResult (optionsMap : OptionsMap) (filterName : String)
    (queryResult : Except String (List Row)) : OptionsMap :=
  match findFilter filterName with
  | none => optionsMap
  | some filterConfig =>
    match queryResult with
    | .error _ => optionsMap
    | .ok result =>
      optionsMap.set filterName (rowsToOptions filterConfig.field result)

-- ========================================================================
-- Cascading fetch effect (useEffect on stagedFilters, Tabs.tsx)
-- ========================================================================

/-- The `parentsWithValues` object collected by the cascading `useEffect`:
the listens_to parents whose staged entry is a non-empty list, with their
staged values. -/
def parentsWithValues (stagedFilters : FilterMap) (listensTo : List String) :
    List (String × List String) :=
  listensTo.foldl
    (fun acc parentName =>
      match stagedFilters parentName with
      | some parentValues =>
        if parentValues.length > 0 then acc ++ [(parentName, parentValues)]
        else acc
      | none => acc)
    []

/-- One option fetch issued by the cascading effect. -/
structure FetchRequest where
  filterName : String
  body : QueryBody
deriving DecidableEq, Repr

/-- The fetches issued by the cascading `useEffect` for a given staged map:
one per filter with a non-empty `listens_to`, scoped to the parents that
currently have non-empty staged values, or unscoped when none has. -/
def cascadingFetches (stagedFilters : FilterMap) : List FetchRequest :=
  (TABS_CONFIG_filters.filter (fun f => f.listens_to.length > 0)).filterMap
    (fun depFilter =>
      match findFilter depFilter.name with
      | none => none
      | some filterConfig =>
        let pw := parentsWithValues stagedFilters depFilter.listens_to
        if pw.length > 0 then
          some ⟨depFilter.name, buildQueryBody filterConfig (some pw)⟩
        else
          some ⟨depFilter.name, buildQueryBody filterConfig none⟩)

-- ========================================================================
-- Date range and the update / reset handlers (Tabs.tsx)
-- ========================================================================

/-- A calendar date; `month` and `day` are the 1-based values produced by
`getMonth() + 1` and `getDate()`. -/
structure SimpleDate where
  year : Nat
  month : Nat
  day : Nat
deriving DecidableEq, Repr

/-- The `DateRange` value of the date picker: either a concrete from/to
range or a relative preset such as `{type: "last", value: 7, unit: "days"}`. -/
inductive DateRange where
  | range (fromDate toDate : SimpleDate)
  | preset (type : String) (value : Nat) (unit : String)
deriving DecidableEq, Repr

/-- `padStart(2, "0")` applied to the decimal rendering of a component. -/
def padTwo (n : Nat) : String :=
  if n < 10 then "0" ++ toString n else toString n

/-- The `formatDate` helper inside `handleUpdateClick`: `yyyy/mm/dd`. -/
def formatDate (date : SimpleDate) : String :=
  toString date.year ++ "/" ++ padTwo date.month ++ "/" ++ padTwo date.day

/-- The `dateFilterString` computed by `handleUpdateClick`. -/
def dateFilterString : DateRange → String
  | .range fromDate toDate => formatDate fromDate ++ " to " ++ formatDate toDate
  | .preset type value unit =>
    type ++ " " ++ toString value ++ " " ++ unit

-- ========================================================================
-- Component state machine (Tabs.tsx)
-- ========================================================================

/-- The state of the `Tabs` component: the four `useState` cells the claims
are about. -/
structure TabsState where
  stagedFilters : FilterMap
  activeFilters : FilterMap
  filterOptions : OptionsMap
  dateRange : DateRange
  isLoading : Bool

/-- `handleUpdateClick` (Tabs.tsx): commit the staged map plus the formatted
date-range entry to the active map. -/
def handleUpdateClick (s : TabsState) : TabsState :=
  let dfs := dateFilterString s.dateRange
  { s with
    activeFilters :=
      s.stagedFilters.set dateFilterName (if dfs ≠ "" then [dfs] else []) }

/-- `handleResetClick` (Tabs.tsx). -/
def handleResetClick (s : TabsState) : TabsState :=
  { s with
    stagedFilters := FilterMap.empty
    dateRange := .preset "last" 7 "days" }

/-- The events that update the `Tabs` component state: the four handlers,
the date-picker setter, completion of the initial-load effect (which sets
the active map to the default date entry and clears the loading flag), and
completion of one asynchronous option fetch. -/
inductive TabsEvent where
  | filterChange (filterName : String) (newValues : List String)
  | buttonGroupChange (filterName : String) (value : String)
  | updateClick
  | resetClick
  | setDateRange (r : DateRange)
  | initialLoadDone
  | fetchComplete (filterName : String) (queryResult : Except String (List Row))

/-- One state transition of the `Tabs` component. -/
def tabsStep (s : TabsState) : TabsEvent → TabsState
  | .filterChange filterName newValues =>
    { s with stagedFilters := handleFilterChange s.stagedFilters filterName newValues }
  | .buttonGroupChange filterName value =>
    { s with stagedFilters := handleButtonGroupChange s.stagedFilters filterName value }
  | .updateClick => handleUpdateClick s
  | .resetClick => handleResetClick s
  | .setDateRange r => { s with dateRange := r }
  | .initialLoadDone =>
    { s with
      activeFilters := FilterMap.empty.set dateFilterName ["last 7 days"]
      isLoading := false }
  | .fetchComplete filterName queryResult =>
    { s with
      filterOptions := fetchFilterOptionsResult s.filterOptions filterName queryResult }

-- ========================================================================
-- Embedded-dashboard component (Dashboards.tsx)
-- ========================================================================

/-- The active filters handed to one dashboard (`IAllFilters` of
Dashboards.tsx: name to comma-joined values). -/
def DashFilters : Type := List (String × String)

/-- The externally visible calls the `EmbeddedDashboard` component makes on
the embedding SDK and the console. -/
inductive DashAction where
  | createConnection (id : String) (filters : DashFilters)
  | updateFilters (filters : DashFilters)
  | run
  | logConnectionError (message : String)

/-- The lifecycle events of one `EmbeddedDashboard` instance: the embed
container ref firing on first mount, the connection promise resolving or
rejecting, and a change of the `filters` prop. -/
inductive DashEvent where
  | mount (filters : DashFilters)
  | connectOk (filters : DashFilters)
  | connectFail (message : String)
  | filtersChange (filters : DashFilters)

/-- The state of one `EmbeddedDashboard`: its dashboard id prop, and whether
the `dashboard` state cell holds a connected handle. -/
structure DashComp where
  id : String
  connected : Bool
deriving DecidableEq, Repr

/-- One step of the `EmbeddedDashboard` component: the new state and the SDK
calls made.  Mounting builds and connects the dashboard with the current
filters; a resolved connection stores the handle, upon which the filter
effect pushes the current filters and re-runs; a rejected connection only
logs; a later `filters` prop change pushes the new filters to the existing
handle and re-runs, and does nothing before the handle exists. -/
def dashStep (c : DashComp) : DashEvent → DashComp × List DashAction
  | .mount filters => (c, [.createConnection c.id filters])
  | .connectOk filters =>
    ({ c with connected := true }, [.updateFilters filters, .run])
  | .connectFail message => (c, [.logConnectionError message])
  | .filtersChange filters =>
    if c.connected then (c, [.updateFilters filters, .run]) else (c, [])

/-- The actions emitted along a whole event trace. -/
def dashTrace (c : DashComp) : List DashEvent → List DashAction
  | [] => []
  | e :: es =>
    let step := dashStep c e
    step.2 ++ dashTrace step.1 es

/-- Whether an action creates an embedding connection. -/
def DashAction.isCreate : DashAction → Bool
  | .createConnection _ _ => true
  | _ => false

/-- Whether an event is the first-mount ref callback. -/
def DashEvent.isMount : DashEvent → Bool
  | .mount _ => true
  | _ => false

-- ========================================================================
-- Basic lemmas about the filter-map operations
-- ========================================================================

theorem FilterMap.set_apply (m : FilterMap) (k : String) (v : List String)
    (x : String) : m.set k v x = if x = k then some v else m x := rfl

theorem FilterMap.erase_apply (m : FilterMap) (k x : String) :
    m.erase k x = if x = k then none else m x := rfl

theorem eraseAll_apply (deps : List String) (m : FilterMap) (x : String) :
    eraseAll m deps x = if x ∈ deps then none else m x := by
  induction deps generalizing m with
  | nil => simp [eraseAll]
  | cons d ds ih =>
    show eraseAll (m.erase d) ds x = _
    rw [ih]
    by_cases hx : x = d <;> simp [FilterMap.erase_apply, hx]

theorem isPureAddition_eq_false_iff (oldValues newValues : List String) :
    isPureAddition oldValues newValues = false ↔
      ∃ v ∈ oldValues, v ∉ newValues := by
  simp [isPureAddition, List.all_eq_true]

theorem isPureAddition_eq_true_iff (oldValues newValues : List String) :
    isPureAddition oldValues newValues = true ↔
      ∀ v ∈ oldValues, v ∈ newValues := by
  simp [isPureAddition, List.all_eq_true]

-- ========================================================================
-- The listens_to dependency graph of the shipped config
-- ========================================================================

theorem directDependents_eq (p : String) :
    directDependents p =
      if p = "Country" then ["State", "City"]
      else if p = "State" then ["City"]
      else [] := by
  by_cases h1 : p = "Country"
  · subst h1; decide
  · by_cases h2 : p = "State"
    · subst h2; decide
    · simp only [if_neg h1, if_neg h2]
      simp [directDependents, TABS_CONFIG_filters, List.filter, h1, h2]

/-- The transitive-dependency relation of the shipped config, enumerated. -/
theorem transDep_iff (p d : String) :
    TransDep p d ↔
      (p = "Country" ∧ d = "State") ∨ (p = "Country" ∧ d = "City") ∨
      (p = "State" ∧ d = "City") := by
  constructor
  · intro h
    induction h with
    | single hs =>
      have := hs
      unfold directDep at this
      rw [directDependents_eq] at this
      by_cases h1 : p = "Country"
      · simp [h1] at this
        rcases this with h | h
        · exact Or.inl ⟨h1, h⟩
        · exact Or.inr (Or.inl ⟨h1, h⟩)
      · by_cases h2 : p = "State"
        · simp [h1, h2] at this
          exact Or.inr (Or.inr ⟨h2, this⟩)
        · simp [h1, h2] at this
    | tail hpb hbd ih =>
      rename_i b c
      have hb := hbd
      unfold directDep at hb
      rw [directDependents_eq] at hb
      rcases ih with ⟨hp, hbs⟩ | ⟨hp, hbs⟩ | ⟨hp, hbs⟩
      · subst hbs
        simp at hb
        exact Or.inr (Or.inl ⟨hp, hb⟩)
      · subst hbs
        simp at hb
      · subst hbs
        simp at hb
  · intro h
    rcases h with ⟨hp, hd⟩ | ⟨hp, hd⟩ | ⟨hp, hd⟩ <;> subst hp <;> subst hd
    · exact Relation.TransGen.single (by decide)
    · exact Relation.TransGen.single (by decide)
    · exact Relation.TransGen.single (by decide)

theorem transDep_ne {p d : String} (h : TransDep p d) : p ≠ d := by
  rw [transDep_iff] at h
  rcases h with ⟨hp, hd⟩ | ⟨hp, hd⟩ | ⟨hp, hd⟩ <;> subst hp <;> subst hd <;> decide

-- ========================================================================
-- Soundness, completeness and stabilisation of getAllDependents
-- ========================================================================

theorem transDep_of_mem_getAllDependentsFuel :
    ∀ (fuel : Nat) (p d : String),
      d ∈ getAllDependentsFuel fuel p → TransDep p d := by
  intro fuel
  induction fuel with
  | zero => intro p d h; simp [getAllDependentsFuel] at h
  | succ n ih =>
    intro p d h
    simp only [getAllDependentsFuel, List.mem_append, List.mem_flatMap] at h
    rcases h with h | ⟨c, hc, hd⟩
    · exact Relation.TransGen.single h
    · exact Relation.TransGen.head hc (ih c d hd)

theorem transDep_of_mem_getAllDependents {p d : String}
    (h : d ∈ getAllDependents p) : TransDep p d :=
  transDep_of_mem_getAllDependentsFuel _ p d h

theorem mem_getAllDependents_of_transDep {p d : String} (h : TransDep p d) :
    d ∈ getAllDependents p := by
  rw [transDep_iff] at h
  rcases h with ⟨hp, hd⟩ | ⟨hp, hd⟩ | ⟨hp, hd⟩ <;> subst hp <;> subst hd <;> decide

theorem not_mem_getAllDependents_self (name : String) :
    name ∉ getAllDependents name := by
  intro h
  exact transDep_ne (transDep_of_mem_getAllDependents h) rfl

theorem not_mem_getAllDependents_of_not_transDep {p k : String}
    (h : ¬ TransDep p k) : k ∉ getAllDependents p :=
  fun hk => h (transDep_of_mem_getAllDependents hk)

theorem getAllDependentsFuel_other {name : String} (h1 : name ≠ "Country")
    (h2 : name ≠ "State") : ∀ fuel, getAllDependentsFuel fuel name = [] := by
  intro fuel
  cases fuel with
  | zero => rfl
  | succ n =>
    simp [getAllDependentsFuel, directDependents_eq, h1, h2]

theorem getAllDependentsFuel_state :
    ∀ fuel, 1 ≤ fuel → getAllDependentsFuel fuel "State" = ["City"] := by
  intro fuel hfuel
  cases fuel with
  | zero => omega
  | succ n =>
    simp [getAllDependentsFuel, directDependents_eq,
      @getAllDependentsFuel_other "City" (by decide) (by decide)]

theorem getAllDependentsFuel_country :
    ∀ fuel, 2 ≤ fuel → getAllDependentsFuel fuel "Country" = ["State", "City", "City"] := by
  intro fuel hfuel
  cases fuel with
  | zero => omega
  | succ n =>
    have hn : 1 ≤ n := by omega
    simp [getAllDependentsFuel, directDependents_eq,
      getAllDependentsFuel_state n hn,
      @getAllDependentsFuel_other "City" (by decide) (by decide)]

/-- The fuel of the embedded recursion stabilises at 2 on the shipped
config: the unbounded JS recursion terminates with this value. -/
theorem getAllDependentsFuel_stabilises (fuel : Nat) (h : 2 ≤ fuel)
    (name : String) : getAllDependentsFuel fuel name = getAllDependents name := by
  by_cases h1 : name = "Country"
  · subst h1
    rw [getAllDependentsFuel_country fuel h]
    decide
  · by_cases h2 : name = "State"
    · subst h2
      rw [getAllDependentsFuel_state fuel (by omega)]
      decide
    · rw [getAllDependentsFuel_other h1 h2]
      rw [show getAllDependents name = getAllDependentsFuel 5 name from rfl]
      rw [getAllDependentsFuel_other h1 h2]

/-- Pointwise description of `handleFilterChange`. -/
theorem handleFilterChange_apply (prev : FilterMap) (filterName : String)
    (newValues : List String) (x : String) :
    handleFilterChange prev filterName newValues x =
      if isPureAddition (prev.getD filterName) newValues = true then
        prev.set filterName newValues x
      else if x ∈ getAllDependents filterName then none
      else prev.set filterName newValues x := by
  by_cases hpure : isPureAddition (prev.getD filterName) newValues = true
  · simp [handleFilterChange, hpure]
  · simp [handleFilterChange, hpure, eraseAll_apply]

-- ========================================================================
-- Query-filter construction rewritten as filterMap
-- ========================================================================

theorem parentsWithValues_eq (staged : FilterMap) (listensTo : List String) :
    parentsWithValues staged listensTo =
      listensTo.filterMap (fun p =>
        match staged p with
        | some vs => if vs.length > 0 then some (p, vs) else none
        | none => none) := by
  have go : ∀ (l : List String) (init : List (String × List String)),
      l.foldl
        (fun acc parentName =>
          match staged parentName with
          | some parentValues =>
            if parentValues.length > 0 then acc ++ [(parentName, parentValues)]
            else acc
          | none => acc) init =
      init ++ l.filterMap (fun p =>
        match staged p with
        | some vs => if vs.length > 0 then some (p, vs) else none
        | none => none) := by
    intro l
    induction l with
    | nil => intro init; simp
    | cons p ps ih =>
      intro init
      simp only [List.foldl_cons, List.filterMap_cons]
      cases hp : staged p with
      | none => simp only [hp]; rw [ih]
      | some vs =>
        by_cases hl : vs.length > 0
        · simp only [hp, if_pos hl]
          rw [ih]
          simp
        · simp only [hp, if_neg hl]
          rw [ih]
  simpa [parentsWithValues] using go listensTo []

theorem buildQueryFilters_eq (dependencies : List (String × List String)) :
    buildQueryFilters dependencies =
      dependencies.filterMap (fun pv =>
        if pv.2.length > 0 then
          (findFilter pv.1).map
            (fun cfg => (cfg.field, String.intercalate "," pv.2))
        else none) := by
  have go : ∀ (l : List (String × List String)) (init : List (String × String)),
      l.foldl
        (fun acc pv =>
          if pv.2.length > 0 then
            match findFilter pv.1 with
            | some parentConfig =>
              acc ++ [(parentConfig.field, String.intercalate "," pv.2)]
            | none => acc
          else acc) init =
      init ++ l.filterMap (fun pv =>
        if pv.2.length > 0 then
          (findFilter pv.1).map
            (fun cfg => (cfg.field, String.intercalate "," pv.2))
        else none) := by
    intro l
    induction l with
    | nil => intro init; simp
    | cons pv ps ih =>
      intro init
      simp only [List.foldl_cons, List.filterMap_cons]
      by_cases hl : pv.2.length > 0
      · cases hf : findFilter pv.1 with
        | none => simp only [if_pos hl, hf, Option.map_none']; rw [ih]
        | some cfg =>
          simp only [if_pos hl, hf, Option.map_some']
          rw [ih]
          simp
      · simp only [if_neg hl]
        rw [ih]
  simpa [buildQueryFilters] using go dependencies []

/-- The field of a parent filter, as the spec's query description refers to
it. -/
def specFieldOf (p : String) : String :=
  ((findFilter p).map (fun cfg => cfg.field)).getD ""

/-- The query filters as §4.1 of the spec describes them: each listens_to
parent whose staged selection is non-empty contributes its field paired
with the staged values joined by commas. -/
def specQueryFilters (staged : FilterMap) (listensTo : List String) :
    List (String × String) :=
  (listensTo.filter (fun p => !(staged.getD p).isEmpty)).map
    (fun p => (specFieldOf p, String.intercalate "," (staged.getD p)))

/-- The query filters the code builds from the parents that currently have
staged values coincide with the spec's description, whenever every parent
has a filter config. -/
theorem queryFilters_spec (staged : FilterMap) :
    ∀ listensTo : List String, (∀ p ∈ listensTo, (findFilter p).isSome) →
      buildQueryFilters (parentsWithValues staged listensTo) =
        specQueryFilters staged listensTo := by
  intro l
  induction l with
  | nil => intro _; rfl
  | cons p ps ih =>
    intro hl
    have hp : (findFilter p).isSome := hl p (List.mem_cons_self p ps)
    obtain ⟨cfg, hcfg⟩ := Option.isSome_iff_exists.mp hp
    have ihs := ih (fun q hq => hl q (List.mem_cons_of_mem p hq))
    rw [parentsWithValues_eq, buildQueryFilters_eq] at ihs ⊢
    rw [List.filterMap_filterMap] at ihs ⊢
    simp only [List.filterMap_cons, specQueryFilters, List.filter_cons] at ihs ⊢
    cases hsp : staged p with
    | none =>
      have hg : staged.getD p = [] := by simp [FilterMap.getD, hsp]
      simp only [hsp, Option.none_bind, hg, List.isEmpty_nil, Bool.not_true,
        Bool.false_eq_true, if_false]
      exact ihs
    | some vs =>
      have hg : staged.getD p = vs := by simp [FilterMap.getD, hsp]
      by_cases hv : vs.length > 0
      · have hne : vs.isEmpty = false := by
          cases vs with
          | nil => simp at hv
          | cons a as => rfl
        simp only [hsp, if_pos hv, Option.some_bind, hcfg, Option.map_some',
          hg, hne, Bool.not_false, if_true, List.map_cons]
        rw [ihs]
        simp [specFieldOf, hcfg]
      · have hnil : vs = [] := List.length_eq_zero.mp (by omega)
        subst hnil
        have hg0 : staged.getD p = [] := by simp [FilterMap.getD, hsp]
        simp only [hsp, if_neg hv, Option.none_bind, hg0, List.isEmpty_nil,
          Bool.not_true, Bool.false_eq_true, if_false]
        exact ihs

theorem fetch_branch_eq (name : String) (body : QueryBody)
    (pw : List (String × List String)) :
    (if pw.length > 0 then
      some (⟨name, { body with filters := buildQueryFilters pw }⟩ : FetchRequest)
    else some ⟨name, { body with filters := [] }⟩) =
      some ⟨name, { body with filters := buildQueryFilters pw }⟩ := by
  by_cases h : pw.length > 0
  · simp [h]
  · have hnil : pw = [] := List.length_eq_zero.mp (by omega)
    subst hnil
    simp [buildQueryFilters]

/-- Every fetch the cascading effect issues carries exactly the query
filters the spec describes, one fetch per filter with a non-empty
listens_to list. -/
theorem cascadingFetches_eq (stagedFilters : FilterMap) :
    cascadingFetches stagedFilters =
      (TABS_CONFIG_filters.filter (fun f => f.listens_to.length > 0)).map
        (fun f =>
          ⟨f.name,
            { model := lookmlModel, view := lookmlExplore, fields := [f.field],
              filters := specQueryFilters stagedFilters f.listens_to }⟩) := by
  have hstate := queryFilters_spec stagedFilters ["Country"] (by decide)
  have hcity := queryFilters_spec stagedFilters ["Country", "State"] (by decide)
  show List.filterMap _ _ = _
  rw [show TABS_CONFIG_filters.filter (fun f => f.listens_to.length > 0) =
      [{ name := "State", label := "State", field := "users.state",
         type := "select_multi", listens_to := ["Country"] },
       { name := "City", label := "City", field := "users.city",
         type := "select_multi", listens_to := ["Country", "State"] }] from rfl]
  simp only [List.filterMap_cons, List.filterMap_nil, List.map_cons,
    List.map_nil]
  rw [show findFilter "State" =
      some { name := "State", label := "State", field := "users.state",
             type := "select_multi", listens_to := ["Country"] } from rfl]
  rw [show findFilter "City" =
      some { name := "City", label := "City", field := "users.city",
             type := "select_multi", listens_to := ["Country", "State"] }
      from rfl]
  simp only [buildQueryBody]
  rw [fetch_branch_eq "State"
      { model := lookmlModel, view := lookmlExplore, fields := ["users.state"],
        filters := [] },
    fetch_branch_eq "City"
      { model := lookmlModel, view := lookmlExplore, fields := ["users.city"],
        filters := [] }]
  rw [hstate, hcity]

/-- C1: every staged change through `handleFilterChange` that removes at
least one previously selected value of the changed filter (including
clearing the selection) deletes the staged entry of every direct or
transitive dependent of that filter. -/
theorem handleFilterChange_removal_clears_dependents
    (prev : FilterMap) (filterName : String) (newValues : List String)
    (hrem : ∃ v ∈ prev.getD filterName, v ∉ newValues)
    (d : String) (hd : TransDep filterName d) :
    handleFilterChange prev filterName newValues d = none := by
  have hpure : isPureAddition (prev.getD filterName) newValues = false :=
    (isPureAddition_eq_false_iff _ _).mpr hrem
  rw [handleFilterChange_apply, hpure]
  simp [mem_getAllDependents_of_transDep hd]

/-- Witness for C1: staging Country = ["USA"] and then clearing it deletes
the staged entry of the dependent State filter. -/
theorem handleFilterChange_removal_clears_dependents_witness :
    (∃ v ∈ (FilterMap.empty.set "Country" ["USA"]).getD "Country",
        v ∉ ([] : List String)) ∧
    TransDep "Country" "State" ∧
    handleFilterChange (FilterMap.empty.set "Country" ["USA"]) "Country" []
      "State" = none :=
  ⟨by decide, Relation.TransGen.single (by decide),
   handleFilterChange_removal_clears_dependents _ "Country" [] (by decide)
     "State" (Relation.TransGen.single (by decide))⟩

/-- C2: a staged change through `handleFilterChange` whose new selection
keeps every previously selected value (a pure superset addition) leaves the
staged entry of every dependent filter unchanged. -/
theorem handleFilterChange_pure_addition_preserves_dependents
    (prev : FilterMap) (filterName : String) (newValues : List String)
    (hadd : ∀ v ∈ prev.getD filterName, v ∈ newValues)
    (d : String) (hd : TransDep filterName d) :
    handleFilterChange prev filterName newValues d = prev d := by
  have hpure : isPureAddition (prev.getD filterName) newValues = true :=
    (isPureAddition_eq_true_iff _ _).mpr hadd
  have hne : d ≠ filterName := Ne.symm (transDep_ne hd)
  rw [handleFilterChange_apply, hpure]
  simp [FilterMap.set_apply, hne]

/-- Witness for C2: adding "Mexico" to Country = ["USA"] keeps the staged
State entry intact. -/
theorem handleFilterChange_pure_addition_preserves_dependents_witness :
    (∀ v ∈ ((FilterMap.empty.set "Country" ["USA"]).set "State" ["CA"]).getD
        "Country", v ∈ ["USA", "Mexico"]) ∧
    TransDep "Country" "State" ∧
    handleFilterChange ((FilterMap.empty.set "Country" ["USA"]).set "State"
        ["CA"]) "Country" ["USA", "Mexico"] "State" =
      ((FilterMap.empty.set "Country" ["USA"]).set "State" ["CA"]) "State" :=
  ⟨by decide, Relation.TransGen.single (by decide),
   handleFilterChange_pure_addition_preserves_dependents _ "Country"
     ["USA", "Mexico"] (by decide) "State"
     (Relation.TransGen.single (by decide))⟩

/-- C3: `handleButtonGroupChange` always deletes the staged entries of all
direct and transitive dependents and sets the changed filter's staged entry
to the single-element list containing the new value. -/
theorem handleButtonGroupChange_clears_dependents_and_sets
    (stagedFilters : FilterMap) (filterName value : String) :
    (∀ d, TransDep filterName d →
      handleButtonGroupChange stagedFilters filterName value d = none) ∧
    handleButtonGroupChange stagedFilters filterName value filterName =
      some [value] := by
  constructor
  · intro d hd
    simp only [handleButtonGroupChange, eraseAll_apply,
      if_pos (mem_getAllDependents_of_transDep hd)]
  · simp [handleButtonGroupChange, eraseAll_apply,
      not_mem_getAllDependents_self filterName, FilterMap.set_apply]

/-- Witness for C3: a Country button-group change clears the dependent
State entry and stores the chosen value for Country. -/
theorem handleButtonGroupChange_clears_dependents_and_sets_witness :
    TransDep "Country" "State" ∧
    handleButtonGroupChange (FilterMap.empty.set "State" ["CA"]) "Country"
      "USA" "State" = none ∧
    handleButtonGroupChange (FilterMap.empty.set "State" ["CA"]) "Country"
      "USA" "Country" = some ["USA"] :=
  ⟨Relation.TransGen.single (by decide),
   (handleButtonGroupChange_clears_dependents_and_sets _ "Country" "USA").1
     "State" (Relation.TransGen.single (by decide)),
   (handleButtonGroupChange_clears_dependents_and_sets _ "Country" "USA").2⟩

/-- C9: both staged-map handlers leave every entry untouched whose key is
neither the changed filter nor one of its direct or transitive dependents,
and `handleFilterChange` stores exactly the new values under the changed
filter's key. -/
theorem staged_handlers_frame
    (prev : FilterMap) (filterName : String) (newValues : List String)
    (value : String) (k : String) (hk : k ≠ filterName)
    (hind : ¬ TransDep filterName k) :
    handleFilterChange prev filterName newValues k = prev k ∧
    handleButtonGroupChange prev filterName value k = prev k ∧
    handleFilterChange prev filterName newValues filterName =
      some newValues := by
  have hkdep : k ∉ getAllDependents filterName :=
    not_mem_getAllDependents_of_not_transDep hind
  refine ⟨?_, ?_, ?_⟩
  · rw [handleFilterChange_apply]
    by_cases h1 : isPureAddition (prev.getD filterName) newValues = true
    · simp [h1, FilterMap.set_apply, hk]
    · simp [h1, hkdep, FilterMap.set_apply, hk]
  · simp only [handleButtonGroupChange, eraseAll_apply, if_neg hkdep,
      FilterMap.set_apply, if_neg hk]
  · rw [handleFilterChange_apply]
    by_cases h1 : isPureAddition (prev.getD filterName) newValues = true
    · simp [h1, FilterMap.set_apply]
    · simp [h1, not_mem_getAllDependents_self filterName, FilterMap.set_apply]

/-- Witness for C9: changing Country leaves the unrelated Category entry
unchanged under both handlers and stores the new Country values. -/
theorem staged_handlers_frame_witness :
    ("Category" ≠ "Country") ∧ (¬ TransDep "Country" "Category") ∧
    handleFilterChange (FilterMap.empty.set "Category" ["Jeans"]) "Country"
      ["USA"] "Category" = (FilterMap.empty.set "Category" ["Jeans"]) "Category" ∧
    handleButtonGroupChange (FilterMap.empty.set "Category" ["Jeans"])
      "Country" "USA" "Category" =
      (FilterMap.empty.set "Category" ["Jeans"]) "Category" ∧
    handleFilterChange (FilterMap.empty.set "Category" ["Jeans"]) "Country"
      ["USA"] "Country" = some ["USA"] := by
  have hnd : ¬ TransDep "Country" "Category" := by
    rw [transDep_iff]; decide
  exact ⟨by decide, hnd,
    (staged_handlers_frame _ "Country" ["USA"] "USA" "Category" (by decide) hnd).1,
    (staged_handlers_frame _ "Country" ["USA"] "USA" "Category" (by decide) hnd).2.1,
    (staged_handlers_frame _ "Country" ["USA"] "USA" "Category" (by decide) hnd).2.2⟩

/-- C10: on the shipped (acyclic) config the `getAllDependents` recursion
terminates — its fuel embedding stabilises from fuel 2 on — and its result
contains every direct and transitive dependent of the starting filter. -/
theorem getAllDependents_terminates_and_complete :
    (∀ name, ¬ TransDep name name) ∧
    (∀ fuel, 2 ≤ fuel → ∀ name,
      getAllDependentsFuel fuel name = getAllDependents name) ∧
    (∀ name d, TransDep name d → d ∈ getAllDependents name) :=
  ⟨fun _ h => transDep_ne h rfl,
   getAllDependentsFuel_stabilises,
   fun _ _ h => mem_getAllDependents_of_transDep h⟩

/-- Witness for C10: fuel 3 already computes the stable dependents of
Country, and the transitive dependent City is in the result. -/
theorem getAllDependents_terminates_and_complete_witness :
    2 ≤ 3 ∧ TransDep "Country" "City" ∧
    getAllDependentsFuel 3 "Country" = getAllDependents "Country" ∧
    "City" ∈ getAllDependents "Country" :=
  ⟨by decide, Relation.TransGen.single (by decide),
   getAllDependents_terminates_and_complete.2.1 3 (by decide) "Country",
   getAllDependents_terminates_and_complete.2.2 "Country" "City"
     (Relation.TransGen.single (by decide))⟩

/-- C4: on every staged-map change the cascading effect issues one option
fetch per filter with a non-empty listens_to list, whose query filters map
exactly the listens_to parents with non-empty staged selections to their
field paired with the comma-joined staged values (and are empty when no
parent has a value); in particular, with Country = ["USA"] staged, the
State fetch is constrained by users.country = "USA". -/
theorem cascading_fetch_scoping :
    (∀ stagedFilters : FilterMap,
      cascadingFetches stagedFilters =
        (TABS_CONFIG_filters.filter (fun f => f.listens_to.length > 0)).map
          (fun f =>
            ⟨f.name,
              { model := lookmlModel, view := lookmlExplore,
                fields := [f.field],
                filters := specQueryFilters stagedFilters f.listens_to }⟩)) ∧
    (⟨"State",
       { model := "ecomm", view := "order_items", fields := ["users.state"],
         filters := [("users.country", "USA")] }⟩ : FetchRequest) ∈
      cascadingFetches (FilterMap.empty.set "Country" ["USA"]) :=
  ⟨cascadingFetches_eq, by decide⟩

theorem rowsToOptions_eq (field : String) (result : List Row) :
    rowsToOptions field result =
      result.filterMap (fun row =>
        (row field).map (fun s => ({ value := s, label := s } : FilterOption))) := by
  induction result with
  | nil => rfl
  | cons r rs ih =>
    simp only [rowsToOptions, List.filter_cons, List.filterMap_cons] at ih ⊢
    cases h : r field with
    | none => simpa [h] using ih
    | some s => simpa [h] using ih

/-- C5: a failed option query leaves the filter-options map exactly as it
was, while a successful one stores under the fetched filter's name the
{value, label} pairs whose value and label are both the string form of the
row's field value, built only from rows whose field value is present. -/
theorem fetchFilterOptions_result_spec
    (optionsMap : OptionsMap) (filterName : String) :
    (∀ e, fetchFilterOptionsResult optionsMap filterName (.error e) =
      optionsMap) ∧
    (∀ cfg result, findFilter filterName = some cfg →
      fetchFilterOptionsResult optionsMap filterName (.ok result) filterName =
        some (result.filterMap (fun row =>
          (row cfg.field).map
            (fun s => ({ value := s, label := s } : FilterOption))))) := by
  constructor
  · intro e
    unfold fetchFilterOptionsResult
    cases findFilter filterName <;> rfl
  · intro cfg result hcfg
    unfold fetchFilterOptionsResult
    rw [hcfg]
    simp [OptionsMap.set, rowsToOptions_eq]

/-- Witness for C5: a failing Country fetch leaves the empty options map
empty; a successful one maps the non-null rows to {value, label} pairs. -/
theorem fetchFilterOptions_result_spec_witness :
    findFilter "Country" =
      some { name := "Country", label := "Country", field := "users.country",
             type := "select_multi" } ∧
    fetchFilterOptionsResult (fun _ => none) "Country" (.error "boom") =
      (fun _ => none) ∧
    fetchFilterOptionsResult (fun _ => none) "Country"
        (.ok [fun f => if f = "users.country" then some "USA" else none,
              fun _ => none]) "Country" =
      some [{ value := "USA", label := "USA" }] := by
  refine ⟨by decide, (fetchFilterOptions_result_spec _ "Country").1 "boom", ?_⟩
  rw [(fetchFilterOptions_result_spec (fun _ => none) "Country").2
      { name := "Country", label := "Country", field := "users.country",
        type := "select_multi" }
      [fun f => if f = "users.country" then some "USA" else none,
       fun _ => none] (by decide)]
  rfl

/-- Counterexample to C6 as stated: the initial-load effect, which is not
the Update handler, changes the active filter map from empty to the
default date entry. -/
theorem activeFilters_change_not_only_update :
    TabsEvent.initialLoadDone ≠ TabsEvent.updateClick ∧
    (tabsStep
        { stagedFilters := FilterMap.empty, activeFilters := FilterMap.empty,
          filterOptions := fun _ => none,
          dateRange := .preset "last" 7 "days", isLoading := true }
        .initialLoadDone).activeFilters "Created Date" ≠
      ({ stagedFilters := FilterMap.empty, activeFilters := FilterMap.empty,
         filterOptions := fun _ => none,
         dateRange := .preset "last" 7 "days",
         isLoading := true } : TabsState).activeFilters "Created Date" := by
  constructor
  · intro h
    cases h
  · intro h
    simp [tabsStep, FilterMap.set, FilterMap.empty, dateFilterName] at h

/-- C6 (amended): the active filter map is modified only by the Update
handler — which commits the staged map plus the formatted date-range
entry — or by the completion of the initial-load effect, which sets it to
the single default date entry; no other step changes it. -/
theorem activeFilters_only_update_or_initial_load :
    (∀ (s : TabsState) (e : TabsEvent),
      e ≠ TabsEvent.updateClick → e ≠ TabsEvent.initialLoadDone →
        (tabsStep s e).activeFilters = s.activeFilters) ∧
    (∀ s : TabsState,
      (tabsStep s .updateClick).activeFilters =
        s.stagedFilters.set dateFilterName
          (if dateFilterString s.dateRange ≠ "" then
            [dateFilterString s.dateRange]
          else [])) ∧
    (∀ s : TabsState,
      (tabsStep s .initialLoadDone).activeFilters =
        FilterMap.empty.set dateFilterName ["last 7 days"]) := by
  refine ⟨?_, fun s => rfl, fun s => rfl⟩
  intro s e hu hi
  cases e with
  | filterChange filterName newValues => rfl
  | buttonGroupChange filterName value => rfl
  | updateClick => exact absurd rfl hu
  | resetClick => rfl
  | setDateRange r => rfl
  | initialLoadDone => exact absurd rfl hi
  | fetchComplete filterName queryResult => rfl

/-- Witness for C6 (amended): a Reset click leaves the active map of a
concrete state untouched. -/
theorem activeFilters_only_update_or_initial_load_witness :
    TabsEvent.resetClick ≠ TabsEvent.updateClick ∧
    TabsEvent.resetClick ≠ TabsEvent.initialLoadDone ∧
    (tabsStep
        { stagedFilters := FilterMap.empty.set "Country" ["USA"],
          activeFilters := FilterMap.empty.set "Country" ["USA"],
          filterOptions := fun _ => none,
          dateRange := .preset "last" 7 "days", isLoading := false }
        .resetClick).activeFilters =
      ({ stagedFilters := FilterMap.empty.set "Country" ["USA"],
         activeFilters := FilterMap.empty.set "Country" ["USA"],
         filterOptions := fun _ => none,
         dateRange := .preset "last" 7 "days",
         isLoading := false } : TabsState).activeFilters :=
  ⟨(by intro h; cases h), (by intro h; cases h),
   activeFilters_only_update_or_initial_load.1 _ TabsEvent.resetClick
     (by intro h; cases h) (by intro h; cases h)⟩

/-- C7: a Reset click empties the staged map and restores the default
last-7-days date range, from every prior state. -/
theorem resetClick_restores_defaults (s : TabsState) :
    (tabsStep s .resetClick).stagedFilters = FilterMap.empty ∧
    (tabsStep s .resetClick).dateRange = .preset "last" 7 "days" :=
  ⟨rfl, rfl⟩

/-- C8: per dashboard the embedding connection is created exactly once, by
the mount event, with the filters current at that time; a change of the
active filter set with a connected handle pushes the new filters and
re-runs on that handle and never re-creates the connection; a connection
failure only logs; and along any event trace the number of connections
created equals the number of mount events. -/
theorem embedded_dashboard_connection_lifecycle :
    (∀ (c : DashComp) (filters : DashFilters),
      dashStep c (.mount filters) = (c, [.createConnection c.id filters])) ∧
    (∀ (c : DashComp) (filters : DashFilters), c.connected = true →
      dashStep c (.filtersChange filters) =
        (c, [.updateFilters filters, .run])) ∧
    (∀ (c : DashComp) (message : String),
      dashStep c (.connectFail message) = (c, [.logConnectionError message])) ∧
    (∀ (c : DashComp) (events : List DashEvent),
      (dashTrace c events).countP (fun a => a.isCreate) =
        events.countP (fun e => e.isMount)) := by
  refine ⟨fun c filters => rfl, ?_, fun c message => rfl, ?_⟩
  · intro c filters hc
    simp [dashStep, hc]
  · intro c events
    induction events generalizing c with
    | nil => rfl
    | cons e es ih =>
      cases e with
      | mount filters =>
        simp only [dashTrace, dashStep]
        rw [List.countP_append, ih]
        simp [List.countP_cons, List.countP_nil, DashAction.isCreate,
          DashEvent.isMount, Nat.add_comm]
      | connectOk filters =>
        simp only [dashTrace, dashStep]
        rw [List.countP_append, ih]
        simp [List.countP_cons, List.countP_nil, DashAction.isCreate,
          DashEvent.isMount]
      | connectFail message =>
        simp only [dashTrace, dashStep]
        rw [List.countP_append, ih]
        simp [List.countP_cons, List.countP_nil, DashAction.isCreate,
          DashEvent.isMount]
      | filtersChange filters =>
        by_cases hc : c.connected
        · simp only [dashTrace, dashStep, hc, if_true]
          rw [List.countP_append, ih]
          simp [List.countP_cons, List.countP_nil, DashAction.isCreate,
            DashEvent.isMount]
        · simp only [dashTrace, dashStep, hc, Bool.false_eq_true, if_false]
          rw [List.countP_append, ih]
          simp [List.countP_cons, List.countP_nil, DashEvent.isMount]

/-- Witness for C8: with a connected handle, a filter change pushes the new
filters and re-runs; a mount trace creates exactly one connection. -/
theorem embedded_dashboard_connection_lifecycle_witness :
    ({ id := "nXJRwDcnj1SY3mz3uJtEJt", connected := true } : DashComp).connected
        = true ∧
    dashStep { id := "nXJRwDcnj1SY3mz3uJtEJt", connected := true }
        (.filtersChange [("Country", "USA")]) =
      ({ id := "nXJRwDcnj1SY3mz3uJtEJt", connected := true },
        [.updateFilters [("Country", "USA")], .run]) ∧
    (dashTrace { id := "nXJRwDcnj1SY3mz3uJtEJt", connected := false }
        [.mount [], .connectOk [], .filtersChange [("Country", "USA")]]).countP
        (fun a => a.isCreate) =
      ([DashEvent.mount [], .connectOk [],
        .filtersChange [("Country", "USA")]].countP (fun e => e.isMount)) :=
  ⟨rfl,
   embedded_dashboard_connection_lifecycle.2.1 _ [("Country", "USA")] rfl,
   embedded_dashboard_connection_lifecycle.2.2.2 _ _⟩
